import Mathlib

/-!
Verification of the flat-file record-store engine shared by the task /
waiver / HITL management tools (archive-task.py, promote-task.py,
manage-waivers.py, create-hitl-item.py).

Documents are modelled as ordered lists of lines, a line being a list of
characters.  The Python tools read a file, call `content.split("\n")`,
work on the resulting list and write back `"\n".join(lines)`; since
`split`/`join` are mutually inverse (a really empty file reads as the
single empty line `[[]]`, never as `[]`), the line-list model is exact.
Functions that work directly on the raw content string (the HITL index
table rewrite) are modelled on plain character lists.
-/

abbrev Line := List Char

/-- Character list of a string literal. -/
def sl (s : String) : Line := s.data

/-- Python `s.startswith(p)`. -/
def startsW : Line → Line → Bool
  | [], _ => true
  | _ :: _, [] => false
  | p :: ps, c :: cs => p == c && startsW ps cs

/-- Python `p in s`: contiguous-substring containment. -/
def containsSub (p : Line) : Line → Bool
  | [] => startsW p []
  | c :: cs => startsW p (c :: cs) || containsSub p cs

/-- Python `"\n".join(lines)`. -/
def joinL : List Line → Line
  | [] => []
  | [l] => l
  | l :: l' :: ls => l ++ '\n' :: joinL (l' :: ls)

/-- Characters matched by Python's `\s` (and stripped by `str.strip()`). -/
def pyWsC (c : Char) : Bool :=
  c == ' ' || c == '\t' || c == '\n' || c == '\r' || c == '\x0b' || c == '\x0c'

def isDigitC (c : Char) : Bool := decide (48 ≤ c.toNat) && decide (c.toNat ≤ 57)

/-- Numeric value of a run of decimal digit characters (Python `int(...)`). -/
def digitsVal (ds : Line) : Nat := ds.foldl (fun a c => a * 10 + (c.toNat - 48)) 0

/-! ## archive-task.py -/

/-- Line condition of `find_task_in_file` (archive-task.py line 35):
`task_id in line and ("- [" in line or "##" in line)`. -/
def startCondA (taskId l : Line) : Bool :=
  containsSub taskId l && (containsSub (sl "- [") l || containsSub (sl "##") l)

def findTaskAux (taskId : Line) : List Line → Nat → Option (Nat × Line)
  | [], _ => none
  | l :: ls, i => if startCondA taskId l then some (i, l) else findTaskAux taskId ls (i + 1)

/-- archive-task.py `find_task_in_file`: scan lines in order, return the
index and content of the first line satisfying `startCondA`. -/
def findTaskInFile (lines : List Line) (taskId : Line) : Option (Nat × Line) :=
  findTaskAux taskId lines 0

/-- Termination test of the range-collection loop in archive-task.py
`main` (lines 206-209): the j-th line after the start (j counted from 0)
stops the range when it starts with `"- ["`, or starts with `"##"` and is
not the line immediately after the start (`i > task_start + 1`). -/
def termA (j : Nat) (l : Line) : Bool :=
  startsW (sl "- [") l || (startsW (sl "##") l && decide (1 ≤ j))

def collectT : List Line → Nat → List Line
  | [], _ => []
  | l :: ls, j => if termA j l then [] else l :: collectT ls (j + 1)

/-- Range extraction in archive-task.py `main` lines 204-210: the start
line followed by the collected continuation lines. -/
def extractTaskContent (lines : List Line) (start : Nat) : List Line :=
  match lines.drop start with
  | [] => []
  | l :: ls => l :: collectT ls 0

/-- Python `line.replace("- [ ]", "- [x]")`: replace every
non-overlapping occurrence, scanning left to right. -/
def replaceBoxAux : Nat → Line → Line
  | 0, l => l
  | _ + 1, [] => []
  | f + 1, c :: cs =>
    if startsW (sl "- [ ]") (c :: cs) then sl "- [x]" ++ replaceBoxAux f (cs.drop 4)
    else c :: replaceBoxAux f cs

def replaceBox (l : Line) : Line := replaceBoxAux l.length l

/-- archive-task.py `mark_task_completed` loop (lines 52-61), returning
the updated line list together with the `updated` flag.  The `- [ ]`
branch does not break out of the loop; the `- [x]` branch does. -/
def markTaskAux (taskId : Line) : List Line → List Line × Bool
  | [] => ([], false)
  | l :: ls =>
    if containsSub taskId l && containsSub (sl "- [") l then
      if containsSub (sl "- [ ]") l then
        let r := markTaskAux taskId ls
        (replaceBox l :: r.1, true)
      else if containsSub (sl "- [x]") l then (l :: ls, true)
      else
        let r := markTaskAux taskId ls
        (l :: r.1, r.2)
    else
      let r := markTaskAux taskId ls
      (l :: r.1, r.2)

/-- archive-task.py `mark_task_completed`: the file is rewritten with the
returned lines when the flag is set; the flag is the returned success. -/
def markTaskCompleted (lines : List Line) (taskId : Line) : List Line × Bool :=
  markTaskAux taskId lines

inductive FsEff where
  | mkdirAll (dir : Line)
  | writeFile (path : Line) (content : Line)
deriving DecidableEq

/-- archive-task.py `archive_task` (lines 76-100) as an effect trace plus
printed output.  `archive_dir.mkdir(parents=True, exist_ok=True)` is
executed on line 79, before the `dry_run` test, so the directory-creation
effect is emitted in both modes. -/
def archiveTaskRun (taskId taskContent archiveDir today : Line)
    (archiveFileExists : Bool) (existing : Line) (dryRun : Bool) :
    List FsEff × List Line :=
  let archiveFile := archiveDir ++ sl "/TODO_ARCHIVE_" ++ today ++ sl ".md"
  let archiveContent :=
    sl "\n## " ++ taskId ++ sl " - Archived " ++ today ++ sl "\n\n" ++
      taskContent ++ sl "\n\n---\n\n"
  if dryRun then
    ([FsEff.mkdirAll archiveDir],
     [sl "DRY RUN: Would archive " ++ taskId ++ sl " to " ++ archiveFile])
  else
    ([FsEff.mkdirAll archiveDir,
      FsEff.writeFile archiveFile
        (if archiveFileExists then existing ++ archiveContent else archiveContent)],
     [sl "✅ Archived " ++ taskId ++ sl " to " ++ archiveFile])

/-! ## promote-task.py -/

/-- Line condition of promote-task.py `find_task_in_file` (line 32):
`task_id in line and ("####" in line or "###" in line)`. -/
def startCondP (taskId l : Line) : Bool :=
  containsSub taskId l && (containsSub (sl "####") l || containsSub (sl "###") l)

/-- Termination test of the collection loop in promote-task.py
`find_task_in_file` (line 36). -/
def stopP (l : Line) : Bool :=
  startsW (sl "####") l || startsW (sl "###") l ||
    (startsW (sl "- [") l && containsSub (sl "TASK-") l)

def collectP (ls : List Line) : List Line := ls.takeWhile (fun l => !stopP l)

def findTaskPAux (taskId : Line) : List Line → Nat → Option (Nat × List Line)
  | [], _ => none
  | l :: ls, i =>
    if startCondP taskId l then some (i, l :: collectP ls)
    else findTaskPAux taskId ls (i + 1)

/-- promote-task.py `find_task_in_file`: index of the first matching line
together with the collected task lines. -/
def findTaskInFileP (lines : List Line) (taskId : Line) : Option (Nat × List Line) :=
  findTaskPAux taskId lines 0

/-- Case-insensitive `startsW` (Python `re.IGNORECASE`). -/
def ciStartsW : Line → Line → Bool
  | [], _ => true
  | _ :: _, [] => false
  | p :: ps, c :: cs => p.toLower == c.toLower && ciStartsW ps cs

/-- Fuel-driven scan: does the predicate hold on some suffix of the
input (the regex engine's attempt at every start position)? -/
def scanB (p : Line → Bool) : Nat → Line → Bool
  | 0, _ => false
  | _ + 1, [] => p []
  | f + 1, c :: cs => p (c :: cs) || scanB p f cs

/-- Match of `\[TASK-\d+\]` (case-insensitive) at the head of the input:
a literal `[`, the tag `TASK-`, a nonempty digit run whose maximal extent
is followed by `]`. -/
def hasTaskIdAt (s : Line) : Bool :=
  match s with
  | '[' :: r =>
    if ciStartsW (sl "task-") r then
      let ds := (r.drop 5).takeWhile isDigitC
      if ds.isEmpty then false
      else
        match r.drop (5 + ds.length) with
        | ']' :: _ => true
        | _ => false
    else false
  | _ => false

def hasTaskIdField (content : Line) : Bool :=
  scanB hasTaskIdAt (content.length + 1) content

/-- Match of `\*\*Priority\*\*:\s*(P0|P1|P2|P3)` (case-insensitive) at
the head of the input: the literal field label, any whitespace run, then
`P` and a digit 0-3. -/
def hasPriorityAt (s : Line) : Bool :=
  if ciStartsW (sl "**priority**:") s then
    match (s.drop 13).dropWhile pyWsC with
    | p :: d :: _ =>
      p.toLower == 'p' && (d == '0' || d == '1' || d == '2' || d == '3')
    | _ => false
  else false

def hasPriorityField (content : Line) : Bool :=
  scanB hasPriorityAt (content.length + 1) content

def hasStatusField (content : Line) : Bool :=
  scanB (ciStartsW (sl "**status**:")) (content.length + 1) content

def hasAcceptanceField (content : Line) : Bool :=
  scanB (ciStartsW (sl "acceptance criteria")) (content.length + 1) content

/-- promote-task.py `validate_task_format` (lines 47-67): runs the four
required-field searches over the joined task content and returns the
validity flag together with the error messages, one per missing field. -/
def validateTaskFormat (taskLines : List Line) : Bool × List Line :=
  let content := joinL taskLines
  let errors :=
    (if hasTaskIdField content then [] else [sl "Missing required field: Task ID"]) ++
    (if hasPriorityField content then [] else [sl "Missing required field: Priority"]) ++
    (if hasStatusField content then [] else [sl "Missing required field: Status"]) ++
    (if hasAcceptanceField content then [] else [sl "Missing \x27Acceptance Criteria\x27 section"])
  (errors.isEmpty, errors)

/-- promote-task.py `remove_task_from_file` (line 77):
`lines[:task_start] + lines[task_start + len(task_lines):]`. -/
def removeTaskFromFile (lines : List Line) (start n : Nat) : List Line :=
  lines.take start ++ lines.drop (start + n)

/-- Python `str.strip()`. -/
def stripWsL (l : Line) : Line :=
  ((l.dropWhile pyWsC).reverse.dropWhile pyWsC).reverse

def firstStripIdxAux : List Line → Nat → Nat
  | [], i => i
  | l :: ls, i =>
    if stripWsL l == sl "## Active Tasks" then i else firstStripIdxAux ls (i + 1)

/-- Index search `next((i for i, line in enumerate(lines) if line.strip()
== "## Active Tasks"), len(lines))` in promote-task.py
`add_task_to_file`. -/
def firstStripIdx (lines : List Line) : Nat := firstStripIdxAux lines 0

def insScanStop (l : Line) : Bool :=
  startsW (sl "## Task Format Template") l || startsW (sl "---") l

def insScanAux : List Line → Nat → Option Nat
  | [], _ => none
  | l :: ls, i => if insScanStop l then some i else insScanAux ls (i + 1)

/-- promote-task.py `add_task_to_file` (lines 91-122) at the line level.
The `"\n\n"`-mediated string appends correspond to splicing a single
empty line between the old lines and the task lines. -/
def addTaskToFile (fileExists : Bool) (lines : List Line) (task : List Line) :
    List Line :=
  if fileExists then
    if lines.any (fun l => containsSub (sl "## Active Tasks") l) then
      let ip0 := firstStripIdx lines
      let ip :=
        match insScanAux (lines.drop (ip0 + 1)) (ip0 + 1) with
        | some i => i
        | none => ip0
      lines.take ip ++ [[]] ++ task ++ [[]] ++ lines.drop ip
    else lines ++ [[]] ++ task
  else [sl "## Active Tasks", []] ++ task

/-- Python `s.count(p)`: non-overlapping occurrence count. -/
def countSubAux (p : Line) : Nat → Line → Nat
  | 0, _ => 0
  | f + 1, s =>
    match s with
    | [] => 0
    | _ :: cs => if startsW p s then 1 + countSubAux p f (s.drop p.length) else countSubAux p f cs

def countSub (p s : Line) : Nat := countSubAux p (s.length + 1) s

inductive PWrite where
  | backlogW (ls : List Line)
  | todoW (ls : List Line)
deriving DecidableEq

structure PromoteIn where
  backlogLines : List Line
  todoExists : Bool
  todoLines : List Line
  taskId : Line
  validateOnly : Bool
  dryRun : Bool
  promptReply : Line
deriving DecidableEq

/-- promote-task.py `main` (lines 139-182) as a function from the run
inputs to the exit code, the file writes performed, and the reported
validation errors.  `promptReply` models the `input()` answer to the
over-capacity prompt. -/
def promoteMainRun (inp : PromoteIn) : Nat × List PWrite × List Line :=
  match findTaskInFileP inp.backlogLines inp.taskId with
  | none => (1, [], [])
  | some (start, tl) =>
    let v := validateTaskFormat tl
    if v.1 = false then (1, [], v.2)
    else if inp.validateOnly then (0, [], [])
    else if inp.todoExists && decide (5 ≤ countSub (sl "TASK-") (joinL inp.todoLines))
        && !(inp.promptReply.map Char.toLower == sl "y") then (0, [], [])
    else
      let newBack := removeTaskFromFile inp.backlogLines start tl.length
      let newTodo := addTaskToFile inp.todoExists inp.todoLines tl
      (0, if inp.dryRun then [] else [PWrite.backlogW newBack, PWrite.todoW newTodo], [])

/-! ## manage-waivers.py -/

/-- First match of `TAG(\d+)` in the input (`re.search`): at each start
position try the literal tag followed by a maximal nonempty digit run;
on failure move one character right. -/
def extractNumAfter (tag : Line) : Nat → Line → Option Nat
  | 0, _ => none
  | _ + 1, [] => none
  | f + 1, c :: cs =>
    if startsW tag (c :: cs) then
      let ds := ((c :: cs).drop tag.length).takeWhile isDigitC
      if ds.isEmpty then extractNumAfter tag f cs else some (digitsVal ds)
    else extractNumAfter tag f cs

/-- manage-waivers.py lines 50-52: `re.search(r"WAIVER-(\d+)", f.name)`. -/
def extractWaiverNum (name : Line) : Option Nat :=
  extractNumAfter (sl "WAIVER-") (name.length + 1) name

def natToDecAux : Nat → Nat → Line
  | 0, _ => []
  | _ + 1, 0 => []
  | f + 1, n + 1 => natToDecAux f ((n + 1) / 10) ++ [Char.ofNat (48 + (n + 1) % 10)]

/-- Decimal digit string of a natural number. -/
def natToDec (n : Nat) : Line := if n = 0 then sl "0" else natToDecAux (n + 1) n

/-- Python `f"{n:04d}"`: decimal, left zero-padded to width 4. -/
def pad4 (n : Nat) : Line :=
  let s := natToDec n
  if s.length < 4 then List.replicate (4 - s.length) '0' ++ s else s

def maxL (l : List Nat) : Nat := l.foldl Nat.max 0

/-- manage-waivers.py `get_waiver_id` (lines 38-58).  `files` models the
result of `waivers_dir.glob("WAIVER-*.md")`; `dirExists` models
`waivers_dir.exists()`.  The scan reads the names and computes the next
identifier; it performs no writes. -/
def getWaiverId (dirExists : Bool) (files : List Line) : Line :=
  if !dirExists then sl "WAIVER-0001"
  else if files.isEmpty then sl "WAIVER-0001"
  else
    let ids := files.filterMap extractWaiverNum
    if ids.isEmpty then sl "WAIVER-0001"
    else sl "WAIVER-" ++ pad4 (maxL ids + 1)

structure PyDate where
  y : Nat
  m : Nat
  d : Nat
deriving DecidableEq

/-- Python's `datetime.date` order: lexicographic on (year, month, day). -/
def dateLtB (a b : PyDate) : Bool :=
  decide (a.y < b.y) ||
    (a.y == b.y && (decide (a.m < b.m) || (a.m == b.m && decide (a.d < b.d))))

/-- manage-waivers.py `check_expired_waivers` line 119: a waiver is
reported expired when `exp_date < today`. -/
def checkExpiredSel (expDate today : PyDate) : Bool := dateLtB expDate today

/-- manage-waivers.py `list_active_waivers` line 144: a waiver is listed
as active when `exp_date >= today`. -/
def listActiveSel (expDate today : PyDate) : Bool :=
  dateLtB today expDate || decide (expDate = today)

/-! ## create-hitl-item.py -/

/-- All matches of `TAG(\d+)` (`re.findall`): non-overlapping, resuming
after each full match. -/
def findallTagAux (tag : Line) : Nat → Line → List Nat
  | 0, _ => []
  | _ + 1, [] => []
  | f + 1, c :: cs =>
    if startsW tag (c :: cs) then
      let ds := ((c :: cs).drop tag.length).takeWhile isDigitC
      if ds.isEmpty then findallTagAux tag f cs
      else digitsVal ds :: findallTagAux tag f ((c :: cs).drop (tag.length + ds.length))
    else findallTagAux tag f cs

/-- create-hitl-item.py `get_next_hitl_id` (lines 30-46):
`re.findall(r"HITL-(\d+)", content)`, then max + 1 zero-padded, with
`HITL-0001` for a missing index file or a content without matches. -/
def getNextHitlId (indexExists : Bool) (content : Line) : Line :=
  if !indexExists then sl "HITL-0001"
  else
    let ids := findallTagAux (sl "HITL-") (content.length + 1) content
    if ids.isEmpty then sl "HITL-0001"
    else sl "HITL-" ++ pad4 (maxL ids + 1)

/-- Longest Boolean-predicate-satisfying leading segment and the rest. -/
def spanB (p : Char → Bool) : Line → Line × Line
  | [] => ([], [])
  | c :: cs =>
    if p c then
      let r := spanB p cs
      (c :: r.1, r.2)
    else ([], c :: cs)

/-- Match of `\|[^\n]+\n` at the head of the input (a complete pipe line
of the table header or separator), returning the matched text and the
rest. -/
def parsePipeNl : Line → Option (Line × Line)
  | [] => none
  | c :: rest =>
    if c == '|' then
      let r := spanB (fun x => !(x == '\n')) rest
      if r.1.isEmpty then none
      else
        match r.2 with
        | [] => none
        | d :: r2 => if d == '\n' then some (c :: (r.1 ++ ['\n']), r2) else none
    else none

/-- Match of `\|[^\n]+\n?` at the head of the input (one data row; the
trailing newline is optional and taken greedily). -/
def parseRow : Line → Option (Line × Line)
  | [] => none
  | c :: rest =>
    if c == '|' then
      let r := spanB (fun x => !(x == '\n')) rest
      if r.1.isEmpty then none
      else
        match r.2 with
        | [] => some (c :: r.1, [])
        | d :: r2 =>
          if d == '\n' then some (c :: (r.1 ++ ['\n']), r2) else some (c :: r.1, d :: r2)
    else none

def parseRowsAux : Nat → Line → List Line × Line
  | 0, s => ([], s)
  | f + 1, s =>
    match parseRow s with
    | some (row, rest) =>
      let r := parseRowsAux f rest
      (row :: r.1, r.2)
    | none => ([], s)

/-- Greedy match of `(?:\|[^\n]+\n?)*`: the list of data rows and the
rest of the input. -/
def parseRows (s : Line) : List Line × Line := parseRowsAux s.length s

/-- Attempted match of the Active-table regex
`(### Active\s*\n\|[^\n]+\n\|[^\n]+\n)((?:\|[^\n]+\n?)*)` at the head of
the input.  The backtracking of `\s*\n` into the following `\|` succeeds
exactly when the maximal whitespace run after the marker is nonempty and
ends with a newline (any shorter split leaves a whitespace character
where `|` is required).  Returns group 1, the rows of group 2, and the
unmatched rest. -/
def matchActiveAt (s : Line) : Option (Line × List Line × Line) :=
  if startsW (sl "### Active") s then
    let afterMark := s.drop 10
    let w := spanB pyWsC afterMark
    if !w.1.isEmpty && (w.1.getLast? == some '\n') then
      match parsePipeNl w.2 with
      | some (hdr, r1) =>
        match parsePipeNl r1 with
        | some (sep, r2) =>
          let rr := parseRows r2
          some (sl "### Active" ++ w.1 ++ hdr ++ sep, rr.1, rr.2)
        | none => none
      | none => none
    else none
  else none

def searchActiveAux : Nat → Line → Option (Line × Line × List Line × Line)
  | 0, _ => none
  | f + 1, s =>
    match matchActiveAt s with
    | some (g1, rows, rest) => some ([], g1, rows, rest)
    | none =>
      match s with
      | [] => none
      | c :: cs =>
        match searchActiveAux f cs with
        | some (pre, g1, rows, rest) => some (c :: pre, g1, rows, rest)
        | none => none

/-- Search (Python `re.search`) of the Active-table pattern: leftmost match, returning
the unmatched text before the match, group 1, the data rows, and the
text after the match. -/
def searchActive (s : Line) : Option (Line × Line × List Line × Line) :=
  searchActiveAux (s.length + 1) s

/-- create-hitl-item.py line 142:
`f"|{hitl_id}|{category}|Pending|{summary}|{filepath}|\n"`. -/
def mkRowL (hid cat summ fp : Line) : Line :=
  '|' :: (hid ++ '|' :: (cat ++ sl "|Pending|" ++ summ ++ '|' :: (fp ++ sl "|\n")))

/-- The fresh index file created by `add_to_index` when the index does
not exist (create-hitl-item.py lines 113-129). -/
def freshIndexDoc (hid cat summ fp : Line) : Line :=
  sl "# /.repo/policy/HITL.md\nHITL = Human-In-The-Loop. This is the single binding place for human-required actions.\n\n## Index tables\n### Active\n|ID|Category|Status|Summary|Filepath|\n|---|---|---|---|---|\n" ++
    mkRowL hid cat summ fp ++
    sl "\n### Archived\n|ID|Category|Status|Summary|Filepath|\n|---|---|---|---|---|\n"

/-- The Active section appended by `add_to_index` when the pattern does
not match (create-hitl-item.py lines 149-155). -/
def noTableSection (hid cat summ fp : Line) : Line :=
  sl "\n### Active\n|ID|Category|Status|Summary|Filepath|\n|---|---|---|---|---|\n" ++
    mkRowL hid cat summ fp

/-- Python `re.sub(active_table_pattern, repl, s)` for a literal
(backslash-free) replacement: every non-overlapping match is replaced,
left to right, the scan resuming after each replaced span.  A match
consumes at least the eleven characters of `### Active` plus a newline,
so the fuel `s.length + 1` used by `pySubActive` covers every match. -/
def pySubActiveAux (repl : Line) : Nat → Line → Line
  | 0, s => s
  | f + 1, s =>
    match searchActive s with
    | some (pre, _, _, rest) => pre ++ repl ++ pySubActiveAux repl f rest
    | none => s

def pySubActive (repl content : Line) : Line :=
  pySubActiveAux repl (content.length + 1) content

/-- create-hitl-item.py `add_to_index` (lines 111-157).  `new_table` is
built from the groups of the FIRST match (`re.search`), and then
`re.sub` replaces EVERY match of the pattern with that same text — a
second Active table later in the document is overwritten by a copy of
the first table plus the new row (`pySubActive`).  Python additionally
escape-processes the replacement string: when `new_table` contains a
backslash the splice is no longer literal (group references and known
escapes are interpreted, an invalid escape such as `\d` raises
`re.error`), so the model is partial and returns `none` in that case;
on a backslash-free replacement Python's template processing is the
identity and the substitution is the literal splice modelled here. -/
def addToIndex (indexExists : Bool) (content : Line) (hid cat summ fp : Line) :
    Option Line :=
  if !indexExists then some (freshIndexDoc hid cat summ fp)
  else
    match searchActive content with
    | some (_, g1, rows, _) =>
      let newTable := g1 ++ rows.flatten ++ mkRowL hid cat summ fp
      if containsSub ['\\'] newTable then none
      else some (pySubActive newTable content)
    | none => some (content ++ noTableSection hid cat summ fp)

/-! ## Comparison definitions taken from the specification text

These definitions follow the specification's words (not the source) and
are used only to state refutations: the code-derived functions above are
compared against them. -/

/-- Heading depth: number of leading `#` characters. -/
def headingDepth (l : Line) : Nat := (l.takeWhile (fun c => c == '#')).length

/-- Modelled from the spec (section 4.1): a line structurally starts a
record when it is a checklist-item line or a heading line of any
depth. -/
def specRecordStart (l : Line) : Bool :=
  startsW (sl "- [") l || decide (1 ≤ headingDepth l)

/-- Modelled from the spec (section 4.1): a line terminates a record
whose start line has heading depth `d0` when it starts a checklist item
or is a heading of the same or shallower depth. -/
def specTermAt (d0 : Nat) (l : Line) : Bool :=
  startsW (sl "- [") l ||
    (decide (1 ≤ headingDepth l) && decide (headingDepth l ≤ d0))

/-- Modelled from the spec (section 4.1): the record range is the start
line plus all following lines up to (excluding) the next terminator of
the same or higher structural level, or to end of document. -/
def specExtractRecord (lines : List Line) (start : Nat) : List Line :=
  match lines.drop start with
  | [] => []
  | l :: ls => l :: ls.takeWhile (fun x => !specTermAt (headingDepth l) x)

/-! ## Concrete documents used in refutations -/

/-- A prose line mentioning the identifier; it starts no record (it
begins with the word `see`), but it contains both the identifier and the
substring `- [`. -/
def c1line : Line := sl "see TASK-001 also - [here]"

/-- A record headed by a depth-2 heading, followed by a strictly deeper
(depth-3) heading and further body text. -/
def c2doc : List Line :=
  [sl "## [TASK-001] t", sl "body", sl "### sub", sl "more"]

def c8S : List Line := [sl "### [TASK-001] t", sl "**P**", sl "### Other", sl "x"]

def c8T : List Line := [sl "## Active Tasks", [], sl "---", sl "footer prose"]

def c8tl : List Line := [sl "### [TASK-001] t", sl "**P**"]

def c8tl2 : List Line :=
  [sl "### [TASK-001] t", sl "**P**", [], sl "---", sl "footer prose"]

def c8T1 : List Line :=
  [sl "## Active Tasks", [], [], sl "### [TASK-001] t", sl "**P**", [],
   sl "---", sl "footer prose"]

/-! ## Helper lemmas -/

theorem ne_nil_of_isEmpty_false {α : Type} {l : List α} (h : l.isEmpty = false) :
    l ≠ [] := by
  cases l with
  | nil => simp at h
  | cons a as => simp

theorem any_false {α : Type} (p : α → Bool) :
    ∀ (l : List α), (∀ x ∈ l, p x = false) → l.any p = false := by
  intro l
  induction l with
  | nil => intro _; rfl
  | cons a as ih =>
    intro h
    simp only [List.any_cons, Bool.or_eq_false_iff]
    exact ⟨h a (List.mem_cons_self a as), ih fun x hx => h x (List.mem_cons_of_mem a hx)⟩

theorem bool_eq_not {a b : Bool} (h : a = true ↔ ¬b = true) : a = !b := by
  cases a <;> cases b <;> simp_all

theorem band_parts {a b : Bool} (h : (a && b) = true) : a = true ∧ b = true := by
  constructor <;> simp_all

theorem getElem?_drop_cons {α : Type} :
    ∀ (ls : List α) (i : Nat) (l : α), ls[i]? = some l →
      ls.drop i = l :: ls.drop (i + 1) := by
  intro ls
  induction ls with
  | nil => intro i l h; simp at h
  | cons a as ih =>
    intro i l h
    cases i with
    | zero => simp_all
    | succ j =>
      simp only [List.getElem?_cons_succ] at h
      simpa using ih j l h

theorem takeWhile_all {α : Type} (p : α → Bool) :
    ∀ (l : List α), (∀ x ∈ l, p x = true) → l.takeWhile p = l := by
  intro l
  induction l with
  | nil => intro _; rfl
  | cons a as ih =>
    intro h
    simp only [List.takeWhile_cons, h a (List.mem_cons_self a as), if_true]
    rw [ih fun x hx => h x (List.mem_cons_of_mem a hx)]

theorem mem_takeWhile_sat {α : Type} (p : α → Bool) :
    ∀ (l : List α) (x : α), x ∈ l.takeWhile p → p x = true := by
  intro l
  induction l with
  | nil => intro x hx; simp [List.takeWhile] at hx
  | cons a as ih =>
    intro x hx
    by_cases ha : p a = true
    · simp only [List.takeWhile_cons, ha, if_true, List.mem_cons] at hx
      rcases hx with rfl | hx
      · exact ha
      · exact ih x hx
    · simp only [List.takeWhile_cons] at hx
      rw [if_neg (by simpa using ha)] at hx
      simp at hx

theorem foldl_max_le_init : ∀ (l : List Nat) (a : Nat), a ≤ l.foldl Nat.max a := by
  intro l
  induction l with
  | nil => intro a; simp
  | cons b bs ih =>
    intro a
    calc a ≤ Nat.max a b := Nat.le_max_left a b
    _ ≤ bs.foldl Nat.max (Nat.max a b) := ih (Nat.max a b)

theorem foldl_max_mem_le :
    ∀ (l : List Nat) (a x : Nat), x ∈ l → x ≤ l.foldl Nat.max a := by
  intro l
  induction l with
  | nil => intro a x hx; simp at hx
  | cons b bs ih =>
    intro a x hx
    rcases List.mem_cons.mp hx with rfl | hx
    · calc x ≤ Nat.max a x := Nat.le_max_right a x
      _ ≤ bs.foldl Nat.max (Nat.max a x) := foldl_max_le_init bs (Nat.max a x)
    · exact ih (Nat.max a b) x hx

theorem foldl_max_mem_or :
    ∀ (l : List Nat) (a : Nat), l.foldl Nat.max a = a ∨ l.foldl Nat.max a ∈ l := by
  intro l
  induction l with
  | nil => intro a; exact Or.inl rfl
  | cons b bs ih =>
    intro a
    rcases ih (Nat.max a b) with h | h
    · have hchoice : Nat.max a b = a ∨ Nat.max a b = b := by
        rcases Nat.le_total a b with hab | hab
        · exact Or.inr (Nat.max_eq_right hab)
        · exact Or.inl (Nat.max_eq_left hab)
      rcases hchoice with hm | hm
      · exact Or.inl (by simp only [List.foldl_cons]; rw [h, hm])
      · refine Or.inr ?_
        simp only [List.foldl_cons]
        rw [h, hm]
        exact List.mem_cons_self b bs
    · exact Or.inr (List.mem_cons_of_mem b h)

theorem le_maxL (l : List Nat) (x : Nat) (hx : x ∈ l) : x ≤ maxL l :=
  foldl_max_mem_le l 0 x hx

theorem maxL_mem (l : List Nat) (h : l ≠ []) : maxL l ∈ l := by
  rcases foldl_max_mem_or l 0 with h0 | hm
  · cases l with
    | nil => exact absurd rfl h
    | cons a as =>
      have ha : a ≤ maxL (a :: as) := le_maxL _ a (List.mem_cons_self a as)
      have : maxL (a :: as) = 0 := h0
      have : a = 0 := by omega
      rw [maxL, h0, ← this]
      exact List.mem_cons_self a as
  · exact hm

theorem findTaskAux_some (taskId : Line) :
    ∀ (ls : List Line) (i0 s : Nat) (l : Line),
      findTaskAux taskId ls i0 = some (s, l) →
      ∃ k, s = i0 + k ∧ ls[k]? = some l ∧ startCondA taskId l = true ∧
        ∀ j x, j < k → ls[j]? = some x → startCondA taskId x = false := by
  intro ls
  induction ls with
  | nil => intro i0 s l h; simp [findTaskAux] at h
  | cons a as ih =>
    intro i0 s l h
    by_cases hc : startCondA taskId a = true
    · rw [findTaskAux, if_pos hc] at h
      obtain ⟨hs, hl⟩ : i0 = s ∧ a = l := by
        constructor <;> [exact congrArg Prod.fst (Option.some.inj h);
          exact congrArg Prod.snd (Option.some.inj h)]
      refine ⟨0, by omega, by simp [← hl], by rw [← hl]; exact hc, ?_⟩
      intro j x hj
      omega
    · rw [findTaskAux, if_neg hc] at h
      obtain ⟨k, hk, hget, hcond, hmin⟩ := ih (i0 + 1) s l h
      refine ⟨k + 1, by omega, by simpa using hget, hcond, ?_⟩
      intro j x hj hx
      cases j with
      | zero =>
        have hxa : a = x := by simpa using hx
        rw [← hxa]
        exact Bool.eq_false_iff.mpr hc
      | succ j' =>
        exact hmin j' x (by omega) (by simpa using hx)

theorem findTaskAux_none (taskId : Line) :
    ∀ (ls : List Line) (i0 : Nat),
      (∀ l ∈ ls, startCondA taskId l = false) → findTaskAux taskId ls i0 = none := by
  intro ls
  induction ls with
  | nil => intro i0 _; rfl
  | cons a as ih =>
    intro i0 h
    rw [findTaskAux, if_neg (by simp [h a (List.mem_cons_self a as)])]
    exact ih (i0 + 1) fun l hl => h l (List.mem_cons_of_mem a hl)

theorem collectT_spec :
    ∀ (ls : List Line) (j0 : Nat),
      ∃ n, n ≤ ls.length ∧ collectT ls j0 = ls.take n ∧
        (∀ j x, j < n → ls[j]? = some x → termA (j0 + j) x = false) ∧
        (n = ls.length ∨ ∃ x, ls[n]? = some x ∧ termA (j0 + n) x = true) := by
  intro ls
  induction ls with
  | nil =>
    intro j0
    exact ⟨0, by simp, rfl, by intro j x hj; omega, Or.inl rfl⟩
  | cons a as ih =>
    intro j0
    by_cases hc : termA j0 a = true
    · refine ⟨0, by simp, by rw [collectT, if_pos hc]; simp, by intro j x hj; omega, ?_⟩
      exact Or.inr ⟨a, by simp, by simpa using hc⟩
    · obtain ⟨n, hn, hcol, hall, hend⟩ := ih (j0 + 1)
      refine ⟨n + 1, by simpa using hn, ?_, ?_, ?_⟩
      · rw [collectT, if_neg hc, hcol]
        simp
      · intro j x hj hx
        cases j with
        | zero =>
          have hxa : a = x := by simpa using hx
          rw [← hxa, Nat.add_zero]
          exact Bool.eq_false_iff.mpr hc
        | succ j' =>
          have h1 : termA (j0 + 1 + j') x = false :=
            hall j' x (by omega) (by simpa using hx)
          have h2 : j0 + (j' + 1) = j0 + 1 + j' := by omega
          rw [h2]
          exact h1
      · rcases hend with h | ⟨x, hx, ht⟩
        · exact Or.inl (by simp [h])
        · refine Or.inr ⟨x, by simpa using hx, ?_⟩
          have h2 : j0 + (n + 1) = j0 + 1 + n := by omega
          rw [h2]
          exact ht

theorem findTaskP_shape (taskId : Line) :
    ∀ (ls : List Line) (i0 s : Nat) (tl : List Line),
      findTaskPAux taskId ls i0 = some (s, tl) →
      ∃ l t, tl = l :: t ∧ startCondP taskId l = true ∧ ∀ x ∈ t, stopP x = false := by
  intro ls
  induction ls with
  | nil => intro i0 s tl h; simp [findTaskPAux] at h
  | cons a as ih =>
    intro i0 s tl h
    by_cases hc : startCondP taskId a = true
    · rw [findTaskPAux, if_pos hc] at h
      have htl : a :: collectP as = tl := congrArg Prod.snd (Option.some.inj h)
      refine ⟨a, collectP as, htl.symm, hc, ?_⟩
      intro x hx
      have := mem_takeWhile_sat (fun l => !stopP l) as x hx
      simpa using this
    · rw [findTaskPAux, if_neg hc] at h
      exact ih (i0 + 1) s tl h

theorem findTaskPAux_append (taskId : Line) :
    ∀ (A B : List Line) (i0 : Nat), (∀ l ∈ A, startCondP taskId l = false) →
      findTaskPAux taskId (A ++ B) i0 = findTaskPAux taskId B (i0 + A.length) := by
  intro A
  induction A with
  | nil => intro B i0 _; simp
  | cons a as ih =>
    intro B i0 h
    rw [List.cons_append, findTaskPAux,
      if_neg (by simp [h a (List.mem_cons_self a as)]),
      ih B (i0 + 1) fun l hl => h l (List.mem_cons_of_mem a hl)]
    have : i0 + 1 + as.length = i0 + (a :: as).length := by simp; omega
    rw [this]

theorem findTaskP_append_task (taskId : Line) (A tl : List Line)
    (hA : ∀ l ∈ A, startCondP taskId l = false)
    (htl : ∃ l t, tl = l :: t ∧ startCondP taskId l = true ∧ ∀ x ∈ t, stopP x = false) :
    findTaskPAux taskId (A ++ tl) 0 = some (A.length, tl) := by
  obtain ⟨l, t, rfl, hl, ht⟩ := htl
  rw [findTaskPAux_append taskId A (l :: t) 0 hA, findTaskPAux, if_pos hl]
  have hcol : collectP t = t :=
    takeWhile_all (fun x => !stopP x) t fun x hx => by simp [ht x hx]
  rw [hcol, Nat.zero_add]

theorem spanB_fst_all (p : Char → Bool) :
    ∀ (l : Line) (c : Char), c ∈ (spanB p l).1 → p c = true := by
  intro l
  induction l with
  | nil => intro c hc; simp [spanB] at hc
  | cons a as ih =>
    intro c hc
    by_cases ha : p a = true
    · rw [spanB, if_pos ha] at hc
      rcases List.mem_cons.mp hc with rfl | hc
      · exact ha
      · exact ih c hc
    · rw [spanB, if_neg ha] at hc
      simp at hc

theorem spanB_decomp (p : Char → Bool) :
    ∀ (l : Line), l = (spanB p l).1 ++ (spanB p l).2 := by
  intro l
  induction l with
  | nil => rfl
  | cons a as ih =>
    by_cases ha : p a = true
    · rw [spanB, if_pos ha]
      simpa using ih
    · rw [spanB, if_neg ha]
      simp

theorem spanB_exact (p : Char → Bool) :
    ∀ (f s : Line), (∀ c ∈ f, p c = true) →
      (s = [] ∨ ∃ c cs, s = c :: cs ∧ p c = false) →
      spanB p (f ++ s) = (f, s) := by
  intro f
  induction f with
  | nil =>
    intro s _ hs
    rcases hs with rfl | ⟨c, cs, rfl, hc⟩
    · rfl
    · simp [spanB, hc]
  | cons a as ih =>
    intro s h hs
    rw [List.cons_append, spanB, if_pos (h a (List.mem_cons_self a as)),
      ih s (fun c hc => h c (List.mem_cons_of_mem a hc)) hs]

/-- A complete, newline-terminated data row as matched by
`\|[^\n]+\n`: a pipe, a nonempty newline-free body, a final newline. -/
def rowWf (r : Line) : Bool :=
  match r with
  | [] => false
  | c :: rest =>
    c == '|' &&
      (let s := spanB (fun x => !(x == '\n')) rest
       !s.1.isEmpty && (s.2 == ['\n']))

theorem rowWf_ne_nil {r : Line} (h : rowWf r = true) : r ≠ [] := by
  cases r with
  | nil => simp [rowWf] at h
  | cons c rest => simp

theorem parseRow_of_wf (r tail : Line) (h : rowWf r = true) :
    parseRow (r ++ tail) = some (r, tail) := by
  cases r with
  | nil => simp [rowWf] at h
  | cons c rest =>
    rw [rowWf] at h
    simp only [Bool.and_eq_true, Bool.not_eq_true', beq_iff_eq] at h
    obtain ⟨hc, hb, hs⟩ := h
    set b := (spanB (fun x => !(x == '\n')) rest).1 with hbdef
    have hdec : rest = b ++ ['\n'] := by
      have := spanB_decomp (fun x => !(x == '\n')) rest
      rw [hs] at this
      exact this
    have hball : ∀ x ∈ b, (fun x => !(x == '\n')) x = true := by
      intro x hx
      exact spanB_fst_all (fun x => !(x == '\n')) rest x hx
    have hspan :
        spanB (fun x => !(x == '\n')) (rest ++ tail) = (b, '\n' :: tail) := by
      rw [hdec, List.append_assoc, List.singleton_append]
      exact spanB_exact (fun x => !(x == '\n')) b ('\n' :: tail) hball
        (Or.inr ⟨'\n', tail, rfl, by simp⟩)
    rw [List.cons_append, parseRow, if_pos (by simp [hc]), hspan]
    simp only [hb, Bool.false_eq_true, if_false]
    rw [if_pos (by simp)]
    rw [hc, hdec]

theorem rowWf_length {r : Line} (h : rowWf r = true) : 1 ≤ r.length := by
  cases r with
  | nil => simp [rowWf] at h
  | cons c rest => simp

theorem parseRowsAux_complete :
    ∀ (rows : List Line) (rest : Line) (fuel : Nat),
      (∀ r ∈ rows, rowWf r = true) → parseRow rest = none →
      (rows.flatten ++ rest).length ≤ fuel →
      parseRowsAux fuel (rows.flatten ++ rest) = (rows, rest) := by
  intro rows
  induction rows with
  | nil =>
    intro rest fuel _ hrest _
    cases fuel with
    | zero => simp [parseRowsAux]
    | succ f => simp [parseRowsAux, hrest]
  | cons r rows' ih =>
    intro rest fuel hwf hrest hfuel
    have hrwf : rowWf r = true := hwf r (List.mem_cons_self r rows')
    have hr1 : 1 ≤ r.length := rowWf_length hrwf
    cases fuel with
    | zero =>
      exfalso
      simp only [List.flatten_cons, List.append_assoc, List.length_append] at hfuel
      omega
    | succ f =>
      have hflat : (r :: rows').flatten ++ rest = r ++ (rows'.flatten ++ rest) := by
        simp [List.flatten_cons, List.append_assoc]
      rw [hflat, parseRowsAux, parseRow_of_wf r (rows'.flatten ++ rest) hrwf]
      have hih : parseRowsAux f (rows'.flatten ++ rest) = (rows', rest) := by
        apply ih rest f (fun x hx => hwf x (List.mem_cons_of_mem r hx)) hrest
        rw [hflat] at hfuel
        simp only [List.length_append] at hfuel ⊢
        omega
      simp [hih]

/-! ## Claims -/

/-- Claim C1, amended: the locator ignores occurrences of the identifier
exactly on lines containing neither the substring `- [` nor the
substring `##`; if the identifier never occurs on a line containing one
of those marker substrings, `Locate` returns not-found even when the
identifier appears in prose.  (The claim's stronger reading — only lines
that structurally start a record qualify — fails: the code tests marker
containment anywhere in the line, see the counterexample.) -/
theorem C1_locator_prose_ignored (lines : List Line) (taskId : Line)
    (h : ∀ l ∈ lines, containsSub taskId l = true →
      containsSub (sl "- [") l = false ∧ containsSub (sl "##") l = false) :
    findTaskInFile lines taskId = none := by
  apply findTaskAux_none
  intro l hl
  unfold startCondA
  by_cases hid : containsSub taskId l = true
  · obtain ⟨h1, h2⟩ := h l hl hid
    simp [h1, h2]
  · simp [Bool.eq_false_iff.mpr hid]

theorem C1_locator_prose_ignored_witness :
    findTaskInFile [sl "prose naming TASK-001 plainly", sl "more prose"]
      (sl "TASK-001") = none :=
  C1_locator_prose_ignored [sl "prose naming TASK-001 plainly", sl "more prose"]
    (sl "TASK-001") (by decide)

/-- Claim C1, counterexample: the document's only line does not
structurally start a record (it is prose beginning with `see`, per the
spec-side `specRecordStart`), yet the locator returns it, because the
line contains the identifier and the substring `- [` mid-line. -/
theorem C1_counterexample :
    specRecordStart c1line = false ∧
    findTaskInFile [c1line] (sl "TASK-001") = some (0, c1line) := by decide

/-- Claim C2, amended: for a located record the returned range is
contiguous, starts at the located line (which contains the identifier),
and extends through following lines up to but excluding the first line
that starts with `- [`, or starts with `##` and is not the line
immediately after the start (`termA`); if no such line exists the range
runs to end of document.  Contrary to the claim's wording, the heading
cut-off is any line starting with `##` regardless of its depth relative
to the record's heading (see the counterexample). -/
theorem C2_located_range (lines : List Line) (taskId : Line) (start : Nat) (l : Line)
    (h : findTaskInFile lines taskId = some (start, l)) :
    containsSub taskId l = true ∧
    ∃ ls n, lines.drop start = l :: ls ∧ n ≤ ls.length ∧
      extractTaskContent lines start = l :: ls.take n ∧
      (∀ j x, j < n → ls[j]? = some x → termA j x = false) ∧
      (n = ls.length ∨ ∃ x, ls[n]? = some x ∧ termA n x = true) := by
  obtain ⟨k, hk, hget, hcond, _⟩ := findTaskAux_some taskId lines 0 start l h
  have hkeq : k = start := by omega
  subst hkeq
  have hdrop : lines.drop k = l :: lines.drop (k + 1) :=
    getElem?_drop_cons lines k l hget
  refine ⟨(band_parts hcond).1, ?_⟩
  obtain ⟨n, hn, hcol, hall, hend⟩ := collectT_spec (lines.drop (k + 1)) 0
  refine ⟨lines.drop (k + 1), n, hdrop, hn, ?_, ?_, ?_⟩
  · unfold extractTaskContent
    rw [hdrop]
    dsimp only
    rw [hcol]
  · intro j x hj hx
    simpa using hall j x hj hx
  · rcases hend with h | ⟨x, hx, ht⟩
    · exact Or.inl h
    · exact Or.inr ⟨x, hx, by simpa using ht⟩

theorem C2_located_range_witness :
    containsSub (sl "TASK-001") (sl "## [TASK-001] t") = true :=
  (C2_located_range [sl "## [TASK-001] t", sl "body", sl "## next"] (sl "TASK-001") 0
    (sl "## [TASK-001] t") (by decide)).1

/-- Claim C2, counterexample: the record starts at a depth-2 heading and
is followed by a depth-3 heading.  Per the claim only a same-or-shallower
heading (or a checklist start) terminates the range, so the spec-side
extraction keeps the whole document; the code stops at the deeper `###`
line, returning only the first two lines. -/
theorem C2_counterexample :
    findTaskInFile c2doc (sl "TASK-001") = some (0, sl "## [TASK-001] t") ∧
    specExtractRecord c2doc 0 = c2doc ∧
    extractTaskContent c2doc 0 = [sl "## [TASK-001] t", sl "body"] ∧
    ¬extractTaskContent c2doc 0 = specExtractRecord c2doc 0 := by decide

/-- Claim C7: re-running MarkCompleted on a document in which every line
carrying the identifier and a checklist marker already holds the
completed value (and none holds the pending `- [ ]` value) leaves the
document unchanged and still reports success. -/
theorem C7_mark_completed_idem (taskId : Line) :
    ∀ ls : List Line,
      (∀ l ∈ ls, containsSub taskId l = true → containsSub (sl "- [ ]") l = false) →
      (∃ l ∈ ls, containsSub taskId l = true ∧ containsSub (sl "- [") l = true ∧
        containsSub (sl "- [x]") l = true) →
      markTaskCompleted ls taskId = (ls, true) := by
  intro ls
  simp only [markTaskCompleted]
  induction ls with
  | nil =>
    intro _ hB
    simp at hB
  | cons a as ih =>
    intro hA hB
    by_cases hc : (containsSub taskId a && containsSub (sl "- [") a) = true
    · have hida : containsSub taskId a = true := (band_parts hc).1
      have hsp : containsSub (sl "- [ ]") a = false :=
        hA a (List.mem_cons_self a as) hida
      by_cases hx : containsSub (sl "- [x]") a = true
      · rw [markTaskAux, if_pos hc, if_neg (by simp [hsp]), if_pos hx]
      · have hB' : ∃ l ∈ as, containsSub taskId l = true ∧
            containsSub (sl "- [") l = true ∧ containsSub (sl "- [x]") l = true := by
          obtain ⟨l, hl, h1, h2, h3⟩ := hB
          rcases List.mem_cons.mp hl with rfl | hl
          · exact absurd h3 hx
          · exact ⟨l, hl, h1, h2, h3⟩
        have hres := ih (fun l hl h => hA l (List.mem_cons_of_mem a hl) h) hB'
        rw [markTaskAux, if_pos hc, if_neg (by simp [hsp]), if_neg hx]
        simp [hres]
    · have hB' : ∃ l ∈ as, containsSub taskId l = true ∧
          containsSub (sl "- [") l = true ∧ containsSub (sl "- [x]") l = true := by
        obtain ⟨l, hl, h1, h2, h3⟩ := hB
        rcases List.mem_cons.mp hl with rfl | hl
        · exact absurd (by simp [h1, h2]) hc
        · exact ⟨l, hl, h1, h2, h3⟩
      have hres := ih (fun l hl h => hA l (List.mem_cons_of_mem a hl) h) hB'
      rw [markTaskAux, if_neg hc]
      simp [hres]

theorem C7_mark_completed_idem_witness :
    markTaskCompleted [sl "- [x] [TASK-001] done", sl "notes"] (sl "TASK-001") =
      ([sl "- [x] [TASK-001] done", sl "notes"], true) :=
  C7_mark_completed_idem (sl "TASK-001") [sl "- [x] [TASK-001] done", sl "notes"]
    (by decide) (by decide)

/-- Claim C10: identifier matching in the locator is plain substring
containment.  A located result is the first line that contains the
identifier anywhere as a substring together with a marker substring; in
particular `TASK-7` locates the line of `TASK-71`. -/
theorem C10_substring_match (lines : List Line) (taskId : Line) (i : Nat) (l : Line)
    (h : findTaskInFile lines taskId = some (i, l)) :
    lines[i]? = some l ∧ containsSub taskId l = true ∧
      (containsSub (sl "- [") l || containsSub (sl "##") l) = true ∧
      (∀ j x, j < i → lines[j]? = some x → startCondA taskId x = false) ∧
      findTaskInFile [sl "- [ ] [TASK-71] fix build"] (sl "TASK-7") =
        some (0, sl "- [ ] [TASK-71] fix build") := by
  obtain ⟨k, hk, hget, hcond, hmin⟩ := findTaskAux_some taskId lines 0 i l h
  have hkeq : k = i := by omega
  subst hkeq
  exact ⟨hget, (band_parts hcond).1, (band_parts hcond).2, hmin,
    by decide⟩

theorem C10_substring_match_witness :
    containsSub (sl "TASK-7") (sl "- [ ] [TASK-71] fix build") = true :=
  (C10_substring_match [sl "- [ ] [TASK-71] fix build"] (sl "TASK-7") 0
    (sl "- [ ] [TASK-71] fix build") (by decide)).2.1

/-- Claim C3: the ID allocator returns max(existing suffixes) + 1,
zero-padded to (at least) 4 digits, not the first gap; an empty or
missing scope yields suffix 1.  Stated for the waiver allocator in
general form (the returned suffix exceeds every extracted suffix and is
one more than an extracted one) plus the spec's concrete instances, and
for the HITL allocator on its concrete instances.  Both allocators are
pure functions of the scanned scope. -/
theorem C3_allocator_max_plus_one (files : List Line) :
    getWaiverId false files = sl "WAIVER-0001" ∧
    (files.filterMap extractWaiverNum = [] → getWaiverId true files = sl "WAIVER-0001") ∧
    (files.filterMap extractWaiverNum ≠ [] →
      ∃ m, m ∈ files.filterMap extractWaiverNum ∧
        (∀ x ∈ files.filterMap extractWaiverNum, x ≤ m) ∧
        getWaiverId true files = sl "WAIVER-" ++ pad4 (m + 1)) ∧
    (∀ n : Nat, 4 ≤ (pad4 n).length) ∧
    getWaiverId true [sl "WAIVER-0001.md", sl "WAIVER-0003.md"] = sl "WAIVER-0004" ∧
    getNextHitlId false [] = sl "HITL-0001" ∧
    getNextHitlId true (sl "## x\n|HITL-0001|a|\n|HITL-0003|b|\n") = sl "HITL-0004" := by
  refine ⟨by simp [getWaiverId], ?_, ?_, ?_, by decide, by decide, by decide⟩
  · intro h
    unfold getWaiverId
    simp only [Bool.not_true, Bool.false_eq_true, if_false, h]
    split
    · rfl
    · simp
  · intro h
    have hfs : files.isEmpty = false := by
      cases files with
      | nil => simp at h
      | cons a as => rfl
    have hids : (files.filterMap extractWaiverNum).isEmpty = false := by
      cases hc : files.filterMap extractWaiverNum with
      | nil => exact absurd hc h
      | cons b bs => rfl
    refine ⟨maxL (files.filterMap extractWaiverNum), maxL_mem _ h,
      fun x hx => le_maxL _ x hx, ?_⟩
    unfold getWaiverId
    simp only [Bool.not_true, Bool.false_eq_true, if_false, hfs, hids]
  · intro n
    simp only [pad4]
    split
    · simp only [List.length_append, List.length_replicate]
      omega
    · omega

theorem C3_allocator_max_plus_one_witness :
    getWaiverId true [sl "WAIVER-0007.md"] = sl "WAIVER-" ++ pad4 8 := by
  obtain ⟨m, hm, _, he⟩ :=
    (C3_allocator_max_plus_one [sl "WAIVER-0007.md"]).2.2.1 (by decide)
  have hlist : List.filterMap extractWaiverNum [sl "WAIVER-0007.md"] = [7] := by decide
  have hm7 : m = 7 := by
    rw [hlist] at hm
    simpa using hm
  rw [he, hm7]

/-- Claim C5 (code bug): with the dry-run switch enabled, archive-task.py
`archive_task` still creates the archive directory —
`archive_dir.mkdir(parents=True, exist_ok=True)` runs before the
`dry_run` test — contradicting the tool's own `--dry-run` help text
("no file changes").  The dry run also prints only a status message, not
the would-be archive content: a real run on the same inputs writes the
appended archive text, which appears nowhere in the dry-run output. -/
theorem C5_dryrun_creates_directory :
    archiveTaskRun (sl "TASK-001") (sl "- [x] [TASK-001] done")
        (sl ".repo/archive/tasks") (sl "2026-01-01") false [] true =
      ([FsEff.mkdirAll (sl ".repo/archive/tasks")],
       [sl "DRY RUN: Would archive TASK-001 to .repo/archive/tasks/TODO_ARCHIVE_2026-01-01.md"]) ∧
    archiveTaskRun (sl "TASK-001") (sl "- [x] [TASK-001] done")
        (sl ".repo/archive/tasks") (sl "2026-01-01") false [] false =
      ([FsEff.mkdirAll (sl ".repo/archive/tasks"),
        FsEff.writeFile (sl ".repo/archive/tasks/TODO_ARCHIVE_2026-01-01.md")
          (sl "\n## TASK-001 - Archived 2026-01-01\n\n- [x] [TASK-001] done\n\n---\n\n")],
       [sl "✅ Archived TASK-001 to .repo/archive/tasks/TODO_ARCHIVE_2026-01-01.md"]) := by
  constructor <;> rfl

/-- Claim C6: waiver classification is a strict less-than comparison on
calendar dates; a waiver expiring on the reference date is active, and
the expired test used by check-expired and the active test used by list
are complementary; with the spec's concrete instances. -/
theorem C6_classify_waiver :
    (∀ e r : PyDate, checkExpiredSel e r = true ↔
      (e.y < r.y ∨ (e.y = r.y ∧ (e.m < r.m ∨ (e.m = r.m ∧ e.d < r.d))))) ∧
    (∀ e r : PyDate, listActiveSel e r = !checkExpiredSel e r) ∧
    (∀ d : PyDate, checkExpiredSel d d = false ∧ listActiveSel d d = true) ∧
    checkExpiredSel ⟨2025, 1, 10⟩ ⟨2025, 1, 10⟩ = false ∧
    listActiveSel ⟨2025, 1, 10⟩ ⟨2025, 1, 10⟩ = true ∧
    checkExpiredSel ⟨2025, 1, 9⟩ ⟨2025, 1, 10⟩ = true ∧
    listActiveSel ⟨2025, 1, 9⟩ ⟨2025, 1, 10⟩ = false := by
  have hiff : ∀ e r : PyDate, checkExpiredSel e r = true ↔
      (e.y < r.y ∨ (e.y = r.y ∧ (e.m < r.m ∨ (e.m = r.m ∧ e.d < r.d)))) := by
    rintro ⟨ey, em, ed⟩ ⟨ry, rm, rd⟩
    simp only [checkExpiredSel, dateLtB, Bool.or_eq_true, Bool.and_eq_true,
      decide_eq_true_eq, beq_iff_eq]
  have hcompl : ∀ e r : PyDate, listActiveSel e r = !checkExpiredSel e r := by
    rintro ⟨ey, em, ed⟩ ⟨ry, rm, rd⟩
    apply bool_eq_not
    simp only [listActiveSel, checkExpiredSel, dateLtB, Bool.or_eq_true,
      Bool.and_eq_true, decide_eq_true_eq, beq_iff_eq, PyDate.mk.injEq]
    omega
  refine ⟨hiff, hcompl, ?_, by decide, by decide, by decide, by decide⟩
  intro d
  have h1 : checkExpiredSel d d = false := by
    rcases d with ⟨dy, dm, dd⟩
    simp [checkExpiredSel, dateLtB]
  exact ⟨h1, by rw [hcompl, h1]; rfl⟩

/-- Claim C9: when the located record fails required-field validation,
the promotion main flow reports one message per missing field (each
failing check contributes its specific message), exits with code 1, and
performs no write to either the source or the target document. -/
theorem C9_validation_blocks (inp : PromoteIn) (start : Nat) (tl : List Line)
    (hf : findTaskInFileP inp.backlogLines inp.taskId = some (start, tl))
    (hv : (validateTaskFormat tl).1 = false) :
    promoteMainRun inp = (1, [], (validateTaskFormat tl).2) ∧
    (validateTaskFormat tl).2 ≠ [] ∧
    (hasTaskIdField (joinL tl) = false →
      sl "Missing required field: Task ID" ∈ (validateTaskFormat tl).2) ∧
    (hasPriorityField (joinL tl) = false →
      sl "Missing required field: Priority" ∈ (validateTaskFormat tl).2) ∧
    (hasStatusField (joinL tl) = false →
      sl "Missing required field: Status" ∈ (validateTaskFormat tl).2) ∧
    (hasAcceptanceField (joinL tl) = false →
      sl "Missing \x27Acceptance Criteria\x27 section" ∈ (validateTaskFormat tl).2) := by
  refine ⟨?_, ?_, ?_, ?_, ?_, ?_⟩
  · unfold promoteMainRun
    rw [hf]
    simp [hv]
  · exact ne_nil_of_isEmpty_false (hv : ((validateTaskFormat tl).2).isEmpty = false)
  · intro hfield
    simp [validateTaskFormat, hfield]
  · intro hfield
    simp [validateTaskFormat, hfield]
  · intro hfield
    simp [validateTaskFormat, hfield]
  · intro hfield
    simp [validateTaskFormat, hfield]

theorem C9_validation_blocks_witness :
    promoteMainRun ⟨[sl "### [TASK-001] x", sl "stuff"], false, [], sl "TASK-001",
        false, false, []⟩ =
      (1, [],
       [sl "Missing required field: Priority", sl "Missing required field: Status",
        sl "Missing \x27Acceptance Criteria\x27 section"]) :=
  (C9_validation_blocks
    ⟨[sl "### [TASK-001] x", sl "stuff"], false, [], sl "TASK-001", false, false, []⟩
    0 [sl "### [TASK-001] x", sl "stuff"] (by decide) (by decide)).1

theorem noNl_append {a b : Line} (ha : ∀ c ∈ a, (c == '\n') = false)
    (hb : ∀ c ∈ b, (c == '\n') = false) : ∀ c ∈ a ++ b, (c == '\n') = false := by
  intro c hc
  rcases List.mem_append.mp hc with h | h
  · exact ha c h
  · exact hb c h

theorem noNl_cons {a : Char} {b : Line} (ha : (a == '\n') = false)
    (hb : ∀ c ∈ b, (c == '\n') = false) : ∀ c ∈ a :: b, (c == '\n') = false := by
  intro c hc
  rcases List.mem_cons.mp hc with rfl | h
  · exact ha
  · exact hb c h

theorem mkRowL_wf (hid cat summ fp : Line)
    (h1 : ∀ c ∈ hid, (c == '\n') = false) (h2 : ∀ c ∈ cat, (c == '\n') = false)
    (h3 : ∀ c ∈ summ, (c == '\n') = false) (h4 : ∀ c ∈ fp, (c == '\n') = false) :
    rowWf (mkRowL hid cat summ fp) = true := by
  have hnl : sl "|\n" = ['|', '\n'] := by decide
  have hsplit : hid ++ '|' :: (cat ++ sl "|Pending|" ++ summ ++ '|' :: (fp ++ sl "|\n")) =
      (hid ++ '|' :: (cat ++ sl "|Pending|" ++ summ ++ '|' :: (fp ++ ['|']))) ++ ['\n'] := by
    rw [hnl]
    simp
  have hBnl : ∀ c ∈ hid ++ '|' :: (cat ++ sl "|Pending|" ++ summ ++ '|' :: (fp ++ ['|'])),
      (c == '\n') = false :=
    noNl_append h1 (noNl_cons (by decide)
      (noNl_append (noNl_append (noNl_append h2 (by decide)) h3)
        (noNl_cons (by decide) (noNl_append h4 (by decide)))))
  have hB : ∀ c ∈ hid ++ '|' :: (cat ++ sl "|Pending|" ++ summ ++ '|' :: (fp ++ ['|'])),
      (fun x => !(x == '\n')) c = true := by
    intro c hc
    simp [hBnl c hc]
  have hspan : spanB (fun x => !(x == '\n'))
      (hid ++ '|' :: (cat ++ sl "|Pending|" ++ summ ++ '|' :: (fp ++ sl "|\n"))) =
      (hid ++ '|' :: (cat ++ sl "|Pending|" ++ summ ++ '|' :: (fp ++ ['|'])), ['\n']) := by
    rw [hsplit]
    exact spanB_exact _ _ ['\n'] hB (Or.inr ⟨'\n', [], rfl, by decide⟩)
  simp only [mkRowL, rowWf, hspan]
  have hne : (hid ++ '|' :: (cat ++ sl "|Pending|" ++ summ ++
      '|' :: (fp ++ ['|']))).isEmpty = false := by
    cases hid <;> rfl
  simp [hne]

/-- Literal substitution leaves a match-free string unchanged. -/
theorem pySubActiveAux_none (repl s : Line) (h : searchActive s = none) :
    ∀ fuel, pySubActiveAux repl fuel s = s := by
  intro fuel
  cases fuel with
  | zero => rfl
  | succ f => simp [pySubActiveAux, h]

/-- Claim C4, amended: on an index document whose Active section matches
the table pattern, with every existing data row newline-terminated, no
further row-shaped text immediately after the table, no second Active
table anywhere after it, and a backslash-free replacement (so Python's
replacement-escape processing is the identity), appending a row with
newline-free field values splices the new row after the existing rows:
the text before the table, the heading/header/separator block (group 1)
and the text after the table are unchanged, and re-parsing the data-row
region yields exactly the old rows followed by the new row (N + 1 rows,
new row last, old rows byte-for-byte intact).  The claim's
unconditional form fails when the final data row lacks its trailing
newline, and `re.sub` also clobbers any second Active table (see the
counterexample). -/
theorem C4_append_row (content pre g1 : Line) (rows : List Line)
    (rest hid cat summ fp : Line)
    (hm : searchActive content = some (pre, g1, rows, rest))
    (hrows : ∀ r ∈ rows, rowWf r = true)
    (hrest : parseRow rest = none)
    (hone : searchActive rest = none)
    (hnb : containsSub ['\\'] (g1 ++ rows.flatten ++ mkRowL hid cat summ fp) = false)
    (h1 : ∀ c ∈ hid, (c == '\n') = false) (h2 : ∀ c ∈ cat, (c == '\n') = false)
    (h3 : ∀ c ∈ summ, (c == '\n') = false) (h4 : ∀ c ∈ fp, (c == '\n') = false) :
    addToIndex true content hid cat summ fp =
      some (pre ++ g1 ++ rows.flatten ++ mkRowL hid cat summ fp ++ rest) ∧
    parseRows (rows.flatten ++ (mkRowL hid cat summ fp ++ rest)) =
      (rows ++ [mkRowL hid cat summ fp], rest) := by
  have hwf := mkRowL_wf hid cat summ fp h1 h2 h3 h4
  constructor
  · have hsub : pySubActiveAux (g1 ++ rows.flatten ++ mkRowL hid cat summ fp)
        content.length rest = rest :=
      pySubActiveAux_none _ rest hone content.length
    simp only [addToIndex, Bool.not_true, Bool.false_eq_true, if_false, hm, hnb,
      pySubActive, pySubActiveAux, hsub]
    simp [List.append_assoc]
  · have hall : ∀ r ∈ rows ++ [mkRowL hid cat summ fp], rowWf r = true := by
      intro r hr
      rcases List.mem_append.mp hr with hr | hr
      · exact hrows r hr
      · rw [List.mem_singleton.mp hr]
        exact hwf
    have hflat : (rows ++ [mkRowL hid cat summ fp]).flatten ++ rest =
        rows.flatten ++ (mkRowL hid cat summ fp ++ rest) := by
      simp
    have hlen : ((rows ++ [mkRowL hid cat summ fp]).flatten ++ rest).length ≤
        (rows.flatten ++ (mkRowL hid cat summ fp ++ rest)).length := by
      rw [hflat]
    have hres := parseRowsAux_complete (rows ++ [mkRowL hid cat summ fp]) rest
      ((rows.flatten ++ (mkRowL hid cat summ fp ++ rest)).length) hall hrest hlen
    rw [hflat] at hres
    exact hres

theorem C4_append_row_witness :
    addToIndex true (sl "### Active\n|H|\n|-|\n|r1|\n") (sl "HITL-0002") (sl "Risk")
        (sl "s") (sl "p") =
      some ([] ++ sl "### Active\n|H|\n|-|\n" ++ [sl "|r1|\n"].flatten ++
        mkRowL (sl "HITL-0002") (sl "Risk") (sl "s") (sl "p") ++ []) :=
  (C4_append_row (sl "### Active\n|H|\n|-|\n|r1|\n") [] (sl "### Active\n|H|\n|-|\n")
    [sl "|r1|\n"] [] (sl "HITL-0002") (sl "Risk") (sl "s") (sl "p")
    (by decide) (by decide) (by decide) (by decide) (by decide) (by decide) (by decide)
    (by decide) (by decide)).1

/-- Claim C4, counterexample, two failures of the unconditional claim.
First, the Active table's single data row is the last text of the
document with no trailing newline: the table has N = 1 data rows before
the append and still 1 (not N + 1 = 2) after it — the new row is glued
onto the existing row, corrupting it.  Second, with two Active tables
the code's `re.sub` replaces both matches with the text built from the
first one: the second table's header `|H2|` and row `|B|` are erased
from the document, so content outside the (first) table is modified. -/
theorem C4_counterexample :
    (searchActive (sl "### Active\n|H|\n|-|\n|HITL-0001|a|P|s|p")).map
        (fun r => r.2.2.1.length) = some 1 ∧
    addToIndex true (sl "### Active\n|H|\n|-|\n|HITL-0001|a|P|s|p")
        (sl "HITL-0002") (sl "Risk") (sl "s") (sl "p") =
      some (sl "### Active\n|H|\n|-|\n|HITL-0001|a|P|s|p|HITL-0002|Risk|Pending|s|p|\n") ∧
    (searchActive
        (sl "### Active\n|H|\n|-|\n|HITL-0001|a|P|s|p|HITL-0002|Risk|Pending|s|p|\n")).map
        (fun r => r.2.2.1.length) = some 1 ∧
    addToIndex true (sl "### Active\n|H|\n|-|\n|A|\nx\n### Active\n|H2|\n|-|\n|B|\n")
        (sl "HITL-0002") (sl "Risk") (sl "s") (sl "p") =
      some (sl "### Active\n|H|\n|-|\n|A|\n|HITL-0002|Risk|Pending|s|p|\nx\n### Active\n|H|\n|-|\n|A|\n|HITL-0002|Risk|Pending|s|p|\n") ∧
    containsSub (sl "|H2|")
      (sl "### Active\n|H|\n|-|\n|A|\n|HITL-0002|Risk|Pending|s|p|\nx\n### Active\n|H|\n|-|\n|A|\n|HITL-0002|Risk|Pending|s|p|\n") = false := by
  decide

/-- Claim C8, amended: moving a record out of S into T and back again
preserves the record's content exactly and leaves every other line of
both documents unchanged apart from the blank separator lines inserted
by the append — provided the identifier occurs nowhere outside the moved
record and neither document contains an `## Active Tasks` section (the
target then receives the record by end-of-file append).  When the target
does contain an Active-Tasks section the claim fails: target lines after
the insertion point are absorbed into the record's range on the way back
(see the counterexample), changing the record's content and draining the
target. -/
theorem C8_move_roundtrip (S T : List Line) (taskId : Line) (start : Nat)
    (tl : List Line)
    (h0 : taskId ≠ [])
    (h1 : findTaskInFileP S taskId = some (start, tl))
    (h2 : ∀ l ∈ T, containsSub (sl "## Active Tasks") l = false)
    (h3 : ∀ l ∈ T, containsSub taskId l = false)
    (h5 : ∀ l ∈ S, containsSub (sl "## Active Tasks") l = false)
    (h6 : ∀ l ∈ removeTaskFromFile S start tl.length, startCondP taskId l = false) :
    addTaskToFile true T tl = T ++ [[]] ++ tl ∧
    findTaskInFileP (T ++ [[]] ++ tl) taskId = some (T.length + 1, tl) ∧
    removeTaskFromFile (T ++ [[]] ++ tl) (T.length + 1) tl.length = T ++ [[]] ∧
    addTaskToFile true (removeTaskFromFile S start tl.length) tl =
      removeTaskFromFile S start tl.length ++ [[]] ++ tl ∧
    findTaskInFileP (removeTaskFromFile S start tl.length ++ [[]] ++ tl) taskId =
      some ((removeTaskFromFile S start tl.length).length + 1, tl) := by
  have hshape := findTaskP_shape taskId S 0 start tl h1
  have hid_nil : containsSub taskId [] = false := by
    cases taskId with
    | nil => exact absurd rfl h0
    | cons a as => rfl
  have hcond_nil : startCondP taskId [] = false := by
    unfold startCondP
    simp [hid_nil]
  have hT : ∀ l ∈ T ++ [[]], startCondP taskId l = false := by
    intro l hl
    rcases List.mem_append.mp hl with hl | hl
    · unfold startCondP
      simp [h3 l hl]
    · rw [List.mem_singleton.mp hl]
      exact hcond_nil
  have hlen1 : (T ++ [[]]).length = T.length + 1 := by simp
  have h5' : ∀ l ∈ removeTaskFromFile S start tl.length,
      containsSub (sl "## Active Tasks") l = false := by
    intro l hl
    unfold removeTaskFromFile at hl
    rcases List.mem_append.mp hl with hl | hl
    · exact h5 l (List.take_subset _ _ hl)
    · exact h5 l (List.drop_subset _ _ hl)
  have hS' : ∀ l ∈ removeTaskFromFile S start tl.length ++ [[]],
      startCondP taskId l = false := by
    intro l hl
    rcases List.mem_append.mp hl with hl | hl
    · exact h6 l hl
    · rw [List.mem_singleton.mp hl]
      exact hcond_nil
  have hlen2 : (removeTaskFromFile S start tl.length ++ [[]]).length =
      (removeTaskFromFile S start tl.length).length + 1 := by simp
  refine ⟨?_, ?_, ?_, ?_, ?_⟩
  · have hanyT : T.any (fun l => containsSub (sl "## Active Tasks") l) = false :=
      any_false _ T h2
    simp [addTaskToFile, hanyT]
  · have hfindT := findTaskP_append_task taskId (T ++ [[]]) tl hT hshape
    show findTaskPAux taskId ((T ++ [[]]) ++ tl) 0 = some (T.length + 1, tl)
    rw [hfindT, hlen1]
  · unfold removeTaskFromFile
    have htake : ((T ++ [[]]) ++ tl).take (T.length + 1) = T ++ [[]] := by
      rw [← hlen1]
      exact List.take_left (T ++ [[]]) tl
    have hdroplen : ((T ++ [[]]) ++ tl).length = T.length + 1 + tl.length := by
      simp
      omega
    have hdrop : ((T ++ [[]]) ++ tl).drop (T.length + 1 + tl.length) = [] := by
      rw [← hdroplen, List.drop_length]
    rw [htake, hdrop, List.append_nil]
  · have hanyS : (removeTaskFromFile S start tl.length).any
        (fun l => containsSub (sl "## Active Tasks") l) = false :=
      any_false _ _ h5'
    simp [addTaskToFile, hanyS]
  · have hfindS := findTaskP_append_task taskId
      (removeTaskFromFile S start tl.length ++ [[]]) tl hS' hshape
    show findTaskPAux taskId
      ((removeTaskFromFile S start tl.length ++ [[]]) ++ tl) 0 =
      some ((removeTaskFromFile S start tl.length).length + 1, tl)
    rw [hfindS, hlen2]

theorem C8_move_roundtrip_witness :
    addTaskToFile true [sl "notes"] [sl "### [TASK-001] a", sl "body"] =
      [sl "notes"] ++ [[]] ++ [sl "### [TASK-001] a", sl "body"] ∧
    findTaskInFileP ([sl "notes"] ++ [[]] ++ [sl "### [TASK-001] a", sl "body"])
        (sl "TASK-001") = some (2, [sl "### [TASK-001] a", sl "body"]) ∧
    removeTaskFromFile ([sl "notes"] ++ [[]] ++ [sl "### [TASK-001] a", sl "body"])
        2 2 = [sl "notes"] ++ [[]] ∧
    addTaskToFile true
        (removeTaskFromFile [sl "junk", sl "### [TASK-001] a", sl "body"] 1 2)
        [sl "### [TASK-001] a", sl "body"] =
      removeTaskFromFile [sl "junk", sl "### [TASK-001] a", sl "body"] 1 2 ++
        [[]] ++ [sl "### [TASK-001] a", sl "body"] ∧
    findTaskInFileP
        (removeTaskFromFile [sl "junk", sl "### [TASK-001] a", sl "body"] 1 2 ++
          [[]] ++ [sl "### [TASK-001] a", sl "body"]) (sl "TASK-001") =
      some (2, [sl "### [TASK-001] a", sl "body"]) :=
  C8_move_roundtrip [sl "junk", sl "### [TASK-001] a", sl "body"] [sl "notes"]
    (sl "TASK-001") 1 [sl "### [TASK-001] a", sl "body"]
    (by decide) (by decide) (by decide) (by decide) (by decide) (by decide)

/-- Claim C8, counterexample: the target contains an `## Active Tasks`
section followed by a `---` separator and a footer.  The record
(2 lines) is inserted before the separator; on the way back the locator
extends the record's range past the separator to end of file, so the
re-extracted record (`c8tl2`, 5 lines) differs from the original
(`c8tl`), the moved-back record carries the target's separator and
footer with it, and the target is left with neither.  Record content is
therefore not preserved by move-then-move-back. -/
theorem C8_counterexample :
    findTaskInFileP c8S (sl "TASK-001") = some (0, c8tl) ∧
    addTaskToFile true c8T c8tl = c8T1 ∧
    findTaskInFileP c8T1 (sl "TASK-001") = some (3, c8tl2) ∧
    ¬c8tl2 = c8tl ∧
    removeTaskFromFile c8T1 3 5 = [sl "## Active Tasks", [], []] ∧
    findTaskInFileP (addTaskToFile true (removeTaskFromFile c8S 0 2) c8tl2)
        (sl "TASK-001") = some (3, c8tl2) := by decide
